import Mathlib

/-!
# nodogsplash control thread (`src/ndsctl_thread.c`)

A shallow embedding of the control-socket thread of nodogsplash: the request
reader and dispatcher `ndsctl_handler`, the command handlers `ndsctl_*`, the
client lookup `find_client`, and the event loop body of `thread_ndsctl`.

Conventions of the embedding.

* A byte is a natural number; a byte string or buffer is a `List Nat`.
  A C string stored in a buffer is the run of bytes before the first NUL.
* The functions of other translation units (`client_list.c`, `conf.c`,
  `fw_iptables.c`, `auth.c`, `util.c`, libc) are not part of this file.  Each of
  them is called at most once in one run of a handler, so the value such a call
  returns is a field of the record `Collab`, and the call itself is recorded as an
  `Event` in the trace the handler produces.
* `ssize_t` and `int` values are integers; the conversions to `size_t` that the
  comparisons of the read loop perform are explicit (`to_size_t`).
-/

namespace Ndsctl

/-! ## Bytes and C strings -/

/-- The bytes of a string literal of the source (without the closing NUL). -/
def bytes (s : String) : List Nat := s.toList.map Char.toNat

/-- The C string stored at the start of a buffer: the bytes before the first NUL. -/
def cstr (buf : List Nat) : List Nat := buf.takeWhile (fun b => b != 0)

/-- Libc `strncmp(s1, s2, n)`: compares at most `n` bytes and stops after a NUL.
A read past the end of a list yields NUL (string literals end in NUL). -/
def strncmp : List Nat → List Nat → Nat → Int
  | _, _, 0 => 0
  | s1, s2, n + 1 =>
    if s1.headD 0 ≠ s2.headD 0 then (s1.headD 0 : Int) - (s2.headD 0 : Int)
    else if s1.headD 0 = 0 then 0
    else strncmp s1.tail s2.tail n

/-! ## The request buffer and the read loop of `ndsctl_handler` -/

/-- Modelled from the spec: the macro `MAX_BUF` of `common.h` (not among the
sources), the capacity of the request buffer; the spec gives 4096. -/
def MAX_BUF : Nat := 4096

/-- Conversion of a signed value to `size_t` (64 bit). -/
def to_size_t (x : Int) : Nat := (x % 18446744073709551616).toNat

/-- What the connection has in store for one call of `read`. -/
inductive Arrival where
  /-- Bytes that are ready to be read. -/
  | data (b : List Nat)
  /-- The call fails and returns `-1`. -/
  | error
  deriving DecidableEq, Repr

/-- A connection: what successive calls of `read` will find.  Once the list is
used up the peer has closed, and every further `read` returns 0. -/
abbrev Conn := List Arrival

/-- One call `read(fd, buf, count)`: the value returned, the bytes stored at
`buf`, and the connection afterwards.  At most `count` bytes are delivered; the
bytes of an arrival that did not fit stay in the connection. -/
def read (conn : Conn) (count : Nat) : Int × List Nat × Conn :=
  match conn with
  | [] => (0, [], [])
  | Arrival.error :: rest => (-1, [], rest)
  | Arrival.data b :: rest =>
    if b.length ≤ count then ((b.length : Int), b, rest)
    else ((count : Int), b.take count, Arrival.data (b.drop count) :: rest)

/-- Storing `b` in the buffer from offset `off` on. -/
def writeAt (buf : List Nat) (off : Nat) (b : List Nat) : List Nat :=
  buf.take off ++ b ++ buf.drop (off + b.length)

/-- The `for` loop of lines 237-242, `n` iterations from index `i` on: every
`'\r'` (13) and `'\n'` (10) among the scanned bytes becomes NUL and sets `done`. -/
def scanLoop : Nat → Nat → List Nat × Bool → List Nat × Bool
  | 0, _, st => st
  | n + 1, i, (request, done) =>
    if request.getD i 0 = 13 ∨ request.getD i 0 = 10 then
      scanLoop n (i + 1) (request.set i 0, true)
    else scanLoop n (i + 1) (request, done)

/-- The variables of the read loop. -/
structure ReadState where
  request : List Nat
  read_bytes : Int
  done : Bool
  deriving DecidableEq, Repr

/-- The state at line 229: the buffer zeroed, nothing read. -/
def initState : ReadState := ⟨List.replicate MAX_BUF 0, 0, false⟩

/-- The condition of the `while` of line 233; `read_bytes` is converted to
`size_t` for the comparison with `sizeof(request) - 1`. -/
def loopCond (s : ReadState) : Bool :=
  !s.done && decide (to_size_t s.read_bytes < MAX_BUF - 1)

/-- The body of the `while` (lines 234-245), given what `read` returned
(`len`) and stored (`b`). -/
def loopBody (s : ReadState) (len : Int) (b : List Nat) : ReadState :=
  let stored := writeAt s.request s.read_bytes.toNat b
  let scanned := scanLoop len.toNat s.read_bytes.toNat (stored, s.done)
  ⟨scanned.1, s.read_bytes + len, scanned.2⟩

/-- The `while` loop of lines 233-246.  `none`: the loop did not end within
`fuel` evaluations of its condition. -/
def readLoop : Nat → Conn → ReadState → Option (ReadState × Conn)
  | 0, _, _ => none
  | fuel + 1, conn, s =>
    if loopCond s then
      let r := read conn (to_size_t ((MAX_BUF : Int) - s.read_bytes))
      readLoop fuel r.2.2 (loopBody s r.1 r.2.1)
    else some (s, conn)

/-! ## Collaborators, clients and events -/

/-- The fields of `t_client` (declared in `client_list.h`) that this file uses.
Times are `time_t` values, counters `unsigned long long`. -/
structure t_client where
  ip : List Nat
  mac : List Nat
  token : List Nat
  fw_connection_state : Nat
  session_start : Int
  session_end : Int
  incoming : Nat
  outgoing : Nat
  deriving DecidableEq, Repr, Inhabited

/-- The functions of other translation units that report or fail through
their return value, twelve of them on a MAC address. -/
inductive MacFn where
  | add_to_blocked_mac_list | remove_from_blocked_mac_list
  | add_to_allowed_mac_list | remove_from_allowed_mac_list
  | add_to_trusted_mac_list | remove_from_trusted_mac_list
  | iptables_block_mac | iptables_unblock_mac
  | iptables_allow_mac | iptables_unallow_mac
  | iptables_trust_mac | iptables_untrust_mac
  deriving DecidableEq, Repr

/-- What one run of a handler finds outside this file: the values the calls into
other translation units return, the configuration read through
`config_get_config()`, and the indeterminate contents of the automatic arrays
`ip` and `mac` of `ndsctl_auth` and `ndsctl_deauth`, which are declared and
never assigned.  A client pointer is an index into the client list; `none` is
`NULL`. -/
structure Collab where
  /-- The value of `FW_MARK_AUTHENTICATED` (`fw_iptables.h`). -/
  FW_MARK_AUTHENTICATED : Nat
  /-- The value `time(NULL)` returns. -/
  time : Int
  /-- The field `config->session_timeout`. -/
  session_timeout : Int
  /-- The field `config->bin_auth`; `none` is `NULL`. -/
  bin_auth : Option (List Nat)
  client_list_find_by_ip : List Nat → Option Nat
  client_list_find_by_mac : List Nat → Option Nat
  client_list_find_by_token : List Nat → Option Nat
  /-- The value each of the twelve MAC functions returns on an argument. -/
  mac_fn : MacFn → List Nat → Int
  set_log_level : Int → Int
  atoi : List Nat → Int
  /-- Contents of the uninitialised local `char ip[INET6_ADDRSTRLEN+1]`. -/
  stack_ip : List Nat
  /-- Contents of the uninitialised local `char mac[18]`. -/
  stack_mac : List Nat

/-- What a handler does that is visible outside it, in order.  Debug output
below `LOG_ERR` is left out. -/
inductive Event where
  | LOCK_CLIENT_LIST | UNLOCK_CLIENT_LIST
  | LOCK_CONFIG | UNLOCK_CONFIG
  /-- A call of one of the twelve MAC functions. -/
  | mac_call (f : MacFn) (arg : List Nat)
  | set_log_level (level : Int)
  /-- The call `execute(fmt, bin_auth, mac, incoming, outgoing, session_start, session_end)`. -/
  | execute (fmt : String) (bin_auth mac : List Nat) (incoming outgoing : Nat)
      (session_start session_end : Int)
  | auth_client_authenticate (ip mac : List Nat)
  | auth_client_deauthenticate (ip mac : List Nat)
  | ndsctl_status | ndsctl_clients | ndsctl_json
  | fprintf (s : String)
  /-- The call `debug(LOG_ERR, msg)`. -/
  | log_err (msg : String)
  | pthread_exit
  | fclose
  deriving DecidableEq, Repr

/-! ## The handlers -/

/-- Function `find_client` (lines 289-298): by IP, else by MAC, else by token. -/
def find_client (E : Collab) (arg : List Nat) : Option Nat :=
  match E.client_list_find_by_ip arg with
  | some c => some c
  | none =>
    match E.client_list_find_by_mac arg with
    | some c => some c
    | none => E.client_list_find_by_token arg

/-- Function `ndsctl_auth` (lines 307-353): the events and the client list afterwards. -/
def ndsctl_auth (E : Collab) (clients : List t_client) (arg : List Nat) :
    List Event × List t_client :=
  match find_client E arg with
  | none => ([Event.LOCK_CLIENT_LIST, Event.UNLOCK_CLIENT_LIST, Event.fprintf "No"], clients)
  | some p =>
    let c := clients.getD p default
    if c.fw_connection_state ≠ E.FW_MARK_AUTHENTICATED then
      let c1 := { c with session_start := E.time }
      let c2 := { c1 with session_end :=
        if E.session_timeout ≠ 0 then c1.session_start + E.session_timeout else 0 }
      let script :=
        match E.bin_auth with
        | some path =>
          [Event.execute "%s manual_auth %s %llu %llu %llu" path c2.mac c2.incoming c2.outgoing
            c2.session_start c2.session_end]
        | none => []
      ([Event.LOCK_CLIENT_LIST] ++ script ++
        [Event.UNLOCK_CLIENT_LIST, Event.auth_client_authenticate E.stack_ip E.stack_mac,
          Event.fprintf "Yes"],
        clients.set p c2)
    else
      ([Event.LOCK_CLIENT_LIST, Event.UNLOCK_CLIENT_LIST,
          Event.auth_client_authenticate E.stack_ip E.stack_mac, Event.fprintf "Yes"],
        clients)

/-- Function `ndsctl_deauth` (lines 355-391). -/
def ndsctl_deauth (E : Collab) (clients : List t_client) (arg : List Nat) :
    List Event × List t_client :=
  match find_client E arg with
  | none => ([Event.LOCK_CLIENT_LIST, Event.UNLOCK_CLIENT_LIST, Event.fprintf "No"], clients)
  | some p =>
    let c := clients.getD p default
    let script :=
      match E.bin_auth with
      | some path =>
        [Event.execute "%s manual_deauth %s %llu %llu %llu %llu" path c.mac c.incoming c.outgoing
          c.session_start c.session_end]
      | none => []
    ([Event.LOCK_CLIENT_LIST, Event.UNLOCK_CLIENT_LIST] ++ script ++
      [Event.auth_client_deauthenticate E.stack_ip E.stack_mac, Event.fprintf "Yes"],
      clients)

/-- The common shape of `ndsctl_block`, ..., `ndsctl_untrust` (lines 393-499):
under the config lock, `!list_fn(arg) && !fw_fn(arg)` decides between `Yes` and
`No`; the firewall function is called only when the list function returned 0. -/
def mac_handler (E : Collab) (list_fn fw_fn : MacFn) (arg : List Nat) : List Event :=
  if E.mac_fn list_fn arg = 0 then
    if E.mac_fn fw_fn arg = 0 then
      [Event.LOCK_CONFIG, Event.mac_call list_fn arg, Event.mac_call fw_fn arg,
        Event.fprintf "Yes", Event.UNLOCK_CONFIG]
    else
      [Event.LOCK_CONFIG, Event.mac_call list_fn arg, Event.mac_call fw_fn arg,
        Event.fprintf "No", Event.UNLOCK_CONFIG]
  else
    [Event.LOCK_CONFIG, Event.mac_call list_fn arg, Event.fprintf "No", Event.UNLOCK_CONFIG]

def ndsctl_block (E : Collab) (arg : List Nat) : List Event :=
  mac_handler E MacFn.add_to_blocked_mac_list MacFn.iptables_block_mac arg

def ndsctl_unblock (E : Collab) (arg : List Nat) : List Event :=
  mac_handler E MacFn.remove_from_blocked_mac_list MacFn.iptables_unblock_mac arg

def ndsctl_allow (E : Collab) (arg : List Nat) : List Event :=
  mac_handler E MacFn.add_to_allowed_mac_list MacFn.iptables_allow_mac arg

def ndsctl_unallow (E : Collab) (arg : List Nat) : List Event :=
  mac_handler E MacFn.remove_from_allowed_mac_list MacFn.iptables_unallow_mac arg

def ndsctl_trust (E : Collab) (arg : List Nat) : List Event :=
  mac_handler E MacFn.add_to_trusted_mac_list MacFn.iptables_trust_mac arg

def ndsctl_untrust (E : Collab) (arg : List Nat) : List Event :=
  mac_handler E MacFn.remove_from_trusted_mac_list MacFn.iptables_untrust_mac arg

/-- Function `ndsctl_loglevel` (lines 501-520). -/
def ndsctl_loglevel (E : Collab) (arg : List Nat) : List Event :=
  let level := E.atoi arg
  if E.set_log_level level = 0 then
    [Event.LOCK_CONFIG, Event.set_log_level level, Event.fprintf "Yes", Event.UNLOCK_CONFIG]
  else
    [Event.LOCK_CONFIG, Event.set_log_level level, Event.fprintf "No", Event.UNLOCK_CONFIG]

/-- Function `ndsctl_stop` (lines 301-305). -/
def ndsctl_stop : List Event := [Event.pthread_exit]

/-! ## Dispatch and `ndsctl_handler` -/

/-- A call of a command handler, with the C string its `arg` points to. -/
inductive Invocation where
  | ndsctl_status | ndsctl_clients | ndsctl_json | ndsctl_stop
  | ndsctl_block (arg : List Nat) | ndsctl_unblock (arg : List Nat)
  | ndsctl_allow (arg : List Nat) | ndsctl_unallow (arg : List Nat)
  | ndsctl_trust (arg : List Nat) | ndsctl_untrust (arg : List Nat)
  | ndsctl_auth (arg : List Nat) | ndsctl_deauth (arg : List Nat)
  | ndsctl_loglevel (arg : List Nat)
  deriving DecidableEq, Repr

/-- The `if`/`else if` chain of lines 250-276: the handler called, if any. -/
def dispatch (request : List Nat) : Option Invocation :=
  if strncmp request (bytes "status") 6 = 0 then some Invocation.ndsctl_status
  else if strncmp request (bytes "clients") 7 = 0 then some Invocation.ndsctl_clients
  else if strncmp request (bytes "json") 4 = 0 then some Invocation.ndsctl_json
  else if strncmp request (bytes "stop") 4 = 0 then some Invocation.ndsctl_stop
  else if strncmp request (bytes "block") 5 = 0 then
    some (Invocation.ndsctl_block (cstr (request.drop 6)))
  else if strncmp request (bytes "unblock") 7 = 0 then
    some (Invocation.ndsctl_unblock (cstr (request.drop 8)))
  else if strncmp request (bytes "allow") 5 = 0 then
    some (Invocation.ndsctl_allow (cstr (request.drop 6)))
  else if strncmp request (bytes "unallow") 7 = 0 then
    some (Invocation.ndsctl_unallow (cstr (request.drop 8)))
  else if strncmp request (bytes "trust") 5 = 0 then
    some (Invocation.ndsctl_trust (cstr (request.drop 6)))
  else if strncmp request (bytes "untrust") 7 = 0 then
    some (Invocation.ndsctl_untrust (cstr (request.drop 8)))
  else if strncmp request (bytes "auth") 4 = 0 then
    some (Invocation.ndsctl_auth (cstr (request.drop 5)))
  else if strncmp request (bytes "deauth") 6 = 0 then
    some (Invocation.ndsctl_deauth (cstr (request.drop 7)))
  else if strncmp request (bytes "loglevel") 8 = 0 then
    some (Invocation.ndsctl_loglevel (cstr (request.drop 9)))
  else none

/-- Running the handler called: its events and the client list afterwards. -/
def Invocation.run (E : Collab) (clients : List t_client) :
    Invocation → List Event × List t_client
  | Invocation.ndsctl_status => ([Event.ndsctl_status], clients)
  | Invocation.ndsctl_clients => ([Event.ndsctl_clients], clients)
  | Invocation.ndsctl_json => ([Event.ndsctl_json], clients)
  | Invocation.ndsctl_stop => (Ndsctl.ndsctl_stop, clients)
  | Invocation.ndsctl_block arg => (Ndsctl.ndsctl_block E arg, clients)
  | Invocation.ndsctl_unblock arg => (Ndsctl.ndsctl_unblock E arg, clients)
  | Invocation.ndsctl_allow arg => (Ndsctl.ndsctl_allow E arg, clients)
  | Invocation.ndsctl_unallow arg => (Ndsctl.ndsctl_unallow E arg, clients)
  | Invocation.ndsctl_trust arg => (Ndsctl.ndsctl_trust E arg, clients)
  | Invocation.ndsctl_untrust arg => (Ndsctl.ndsctl_untrust E arg, clients)
  | Invocation.ndsctl_auth arg => Ndsctl.ndsctl_auth E clients arg
  | Invocation.ndsctl_deauth arg => Ndsctl.ndsctl_deauth E clients arg
  | Invocation.ndsctl_loglevel arg => (Ndsctl.ndsctl_loglevel E arg, clients)

/-- What one call of `ndsctl_handler` did. -/
structure Outcome where
  /-- The variables when the read loop ended. -/
  final : ReadState
  /-- The handler called, if any. -/
  invoked : Option Invocation
  /-- Everything visible, in order, up to `fclose` or the exit of the thread. -/
  trace : List Event
  clients : List t_client
  deriving DecidableEq, Repr

/-- Lines 278-286, after the handler returned: the log entry of an
unterminated request, then `fclose`.  Nothing of this runs after `ndsctl_stop`,
which ends the thread. -/
def epilogue (s : ReadState) (handlerTrace : List Event) : List Event :=
  if Event.pthread_exit ∈ handlerTrace then handlerTrace
  else
    handlerTrace ++ (if s.done then [] else [Event.log_err "Invalid ndsctl request."]) ++
      [Event.fclose]

/-- Function `ndsctl_handler` (lines 215-287).  `none`: the read loop did not end
within `fuel` evaluations of its condition. -/
def ndsctl_handler (E : Collab) (clients : List t_client) (fuel : Nat) (conn : Conn) :
    Option Outcome :=
  match readLoop fuel conn initState with
  | none => none
  | some (s, _) =>
    match dispatch s.request with
    | none => some ⟨s, none, epilogue s [], clients⟩
    | some inv =>
      let r := inv.run E clients
      some ⟨s, some inv, epilogue s r.1, r.2⟩

/-- The strings written to the connection, in order: the arguments of `fprintf`. -/
def writes : List Event → List String
  | [] => []
  | Event.fprintf s :: rest => s :: writes rest
  | _ :: rest => writes rest

/-- The bytes the peer receives: everything written, in order. -/
def response (tr : List Event) : String := String.join (writes tr)

/-- The verbs that take an argument. -/
inductive ArgVerb where
  | block | unblock | allow | unallow | trust | untrust | auth | deauth | loglevel
  deriving DecidableEq, Repr

/-- The verb as it is sent. -/
def ArgVerb.name : ArgVerb → List Nat
  | ArgVerb.block => bytes "block"
  | ArgVerb.unblock => bytes "unblock"
  | ArgVerb.allow => bytes "allow"
  | ArgVerb.unallow => bytes "unallow"
  | ArgVerb.trust => bytes "trust"
  | ArgVerb.untrust => bytes "untrust"
  | ArgVerb.auth => bytes "auth"
  | ArgVerb.deauth => bytes "deauth"
  | ArgVerb.loglevel => bytes "loglevel"

/-- The call of the handler of a verb on an argument. -/
def ArgVerb.invocation : ArgVerb → List Nat → Invocation
  | ArgVerb.block => Invocation.ndsctl_block
  | ArgVerb.unblock => Invocation.ndsctl_unblock
  | ArgVerb.allow => Invocation.ndsctl_allow
  | ArgVerb.unallow => Invocation.ndsctl_unallow
  | ArgVerb.trust => Invocation.ndsctl_trust
  | ArgVerb.untrust => Invocation.ndsctl_untrust
  | ArgVerb.auth => Invocation.ndsctl_auth
  | ArgVerb.deauth => Invocation.ndsctl_deauth
  | ArgVerb.loglevel => Invocation.ndsctl_loglevel

/-! ## The event loop of `thread_ndsctl` -/

/-- The bit `EPOLLIN` of `<sys/epoll.h>`. -/
def EPOLLIN : Nat := 1

/-- The bit `EPOLLERR` of `<sys/epoll.h>`. -/
def EPOLLERR : Nat := 8

/-- The bit `EPOLLHUP` of `<sys/epoll.h>`. -/
def EPOLLHUP : Nat := 16

/-- One entry of the array `epoll_wait` fills. -/
structure epoll_event where
  events : Nat
  fd : Int
  deriving DecidableEq, Repr

/-- An entry together with what the calls made for it return: `accept`,
`epoll_ctl(EPOLL_CTL_ADD)`, and whether `ndsctl_handler` ended the thread
(a `stop` request). -/
structure Ready where
  ev : epoll_event
  accept_ret : Int
  epoll_add_ret : Int
  handler_exits : Bool
  deriving DecidableEq, Repr

/-- What the loop does that is visible outside it. -/
inductive LoopEvent where
  | shutdown_close (fd : Int)
  /-- A call of `accept` returned `fd`, which was made non-blocking. -/
  | accepted (fd : Int)
  | epoll_add (fd : Int)
  /-- The call `ndsctl_handler(fd)`, which reads, answers and closes `fd`. -/
  | ndsctl_handler (fd : Int)
  | epoll_del (fd : Int)
  /-- The call `fclose(NULL)` that ends a call of `ndsctl_handler` on a closed
  descriptor; its behaviour is undefined. -/
  | fclose_null
  | pthread_exit
  deriving DecidableEq, Repr

/-- The variables of `thread_ndsctl` that the loop changes, with the
descriptors that have been closed and not handed out again by `accept`. -/
structure LoopState where
  /-- The local `fd`, assigned only by `accept`. -/
  fd : Int
  current_fd_count : Int
  trace : List LoopEvent
  /-- The thread has ended, or its behaviour is undefined from here on. -/
  exited : Bool
  closed : List Int
  deriving DecidableEq, Repr

/-- The body of the `for` of lines 163-207 for one entry.

The call `ndsctl_handler(fd)` of line 197 closes `fd` through `fclose`, unless
the request was `stop`.  When `fd` is a descriptor that is already closed,
`fdopen` returns `NULL` and `read` returns `-1`, so the read loop ends at once
with an empty request, no handler is called, and line 286 calls
`fclose(NULL)`: the behaviour is undefined and the model stops there. -/
def handle_event (sock : Int) (s : LoopState) (r : Ready) : LoopState :=
  if s.exited then s
  else if r.ev.events &&& EPOLLERR ≠ 0 ∨ r.ev.events &&& EPOLLHUP ≠ 0 ∨
      r.ev.events &&& EPOLLIN = 0 then
    if r.ev.fd > 0 then
      { s with trace := s.trace ++ [LoopEvent.shutdown_close r.ev.fd],
               closed := r.ev.fd :: s.closed }
    else s
  else if r.ev.fd = sock then
    if r.accept_ret = -1 then
      { s with fd := -1, trace := s.trace ++ [LoopEvent.pthread_exit], exited := true }
    else if r.epoll_add_ret < 0 then
      { s with fd := r.accept_ret,
               trace := s.trace ++ [LoopEvent.accepted r.accept_ret, LoopEvent.pthread_exit],
               exited := true,
               closed := s.closed.filter (fun d => d != r.accept_ret) }
    else
      { s with fd := r.accept_ret,
               current_fd_count := s.current_fd_count + 1,
               trace := s.trace ++ [LoopEvent.accepted r.accept_ret,
                 LoopEvent.epoll_add r.accept_ret],
               closed := s.closed.filter (fun d => d != r.accept_ret) }
  else if s.fd ∈ s.closed then
    { s with trace := s.trace ++ [LoopEvent.ndsctl_handler s.fd, LoopEvent.fclose_null],
             exited := true }
  else if r.handler_exits then
    { s with trace := s.trace ++ [LoopEvent.ndsctl_handler s.fd, LoopEvent.pthread_exit],
             exited := true }
  else
    { s with current_fd_count := s.current_fd_count - 1,
             trace := s.trace ++ [LoopEvent.ndsctl_handler s.fd, LoopEvent.epoll_del r.ev.fd],
             closed := s.fd :: s.closed }

/-- The loop of `thread_ndsctl` over the entries reported, in order. -/
def thread_ndsctl (sock : Int) (s : LoopState) (rs : List Ready) : LoopState :=
  rs.foldl (handle_event sock) s

/-! ## Definitions for the statements and proofs -/

/-- The byte a scanned byte is left as: NUL for a terminator. -/
def nul (b : Nat) : Nat := if b = 13 ∨ b = 10 then 0 else b

/-- Whether a byte is `'\r'` or `'\n'`. -/
def isTerm (b : Nat) : Bool := decide (b = 13 ∨ b = 10)

/-- The variables of the read loop once the bytes `c` have been read. -/
def stateAfter (c : List Nat) : ReadState :=
  ⟨c.map nul ++ List.replicate (MAX_BUF - c.length) 0, (c.length : Int), c.any isTerm⟩

/-- The loop has ended in `stateAfter c`: a terminator was seen or the buffer
is full up to its last byte. -/
def stopped (c : List Nat) : Prop := c.any isTerm = true ∨ MAX_BUF - 1 ≤ c.length

/-- The thirteen prefixes the dispatch compares with, in its order. -/
def verbs : List (List Nat) :=
  [bytes "status", bytes "clients", bytes "json", bytes "stop", bytes "block",
    bytes "unblock", bytes "allow", bytes "unallow", bytes "trust", bytes "untrust",
    bytes "auth", bytes "deauth", bytes "loglevel"]

/-- A run of the daemon for the examples: every collaborator succeeds, one
client `10.0.0.5` is known and not authenticated, the session timeout is 3600,
no authentication script is configured, and the automatic arrays hold the
bytes of `junk`. -/
def exampleCollab : Collab where
  FW_MARK_AUTHENTICATED := 2
  time := 1000
  session_timeout := 3600
  bin_auth := none
  client_list_find_by_ip := fun arg => if arg = bytes "10.0.0.5" then some 0 else none
  client_list_find_by_mac := fun arg => if arg = bytes "00:11:22:33:44:55" then some 0 else none
  client_list_find_by_token := fun _ => none
  mac_fn := fun _ _ => 0
  set_log_level := fun _ => 0
  atoi := fun _ => 0
  stack_ip := bytes "junk"
  stack_mac := bytes "junk"

/-- The client of the examples, in the state `st`. -/
def exampleClient (st : Nat) : t_client where
  ip := bytes "10.0.0.5"
  mac := bytes "00:11:22:33:44:55"
  token := bytes "tok"
  fw_connection_state := st
  session_start := 5
  session_end := 7
  incoming := 0
  outgoing := 0

/-- The six verbs that change an access list. -/
inductive AccessVerb where
  | block | unblock | allow | unallow | trust | untrust
  deriving DecidableEq, Repr

/-- The handler of an access-list verb. -/
def AccessVerb.handler : AccessVerb → Collab → List Nat → List Event
  | AccessVerb.block => ndsctl_block
  | AccessVerb.unblock => ndsctl_unblock
  | AccessVerb.allow => ndsctl_allow
  | AccessVerb.unallow => ndsctl_unallow
  | AccessVerb.trust => ndsctl_trust
  | AccessVerb.untrust => ndsctl_untrust

/-- The access-list mutation that corresponds to a verb. -/
def AccessVerb.list_fn : AccessVerb → MacFn
  | AccessVerb.block => MacFn.add_to_blocked_mac_list
  | AccessVerb.unblock => MacFn.remove_from_blocked_mac_list
  | AccessVerb.allow => MacFn.add_to_allowed_mac_list
  | AccessVerb.unallow => MacFn.remove_from_allowed_mac_list
  | AccessVerb.trust => MacFn.add_to_trusted_mac_list
  | AccessVerb.untrust => MacFn.remove_from_trusted_mac_list

/-- The firewall call that corresponds to a verb. -/
def AccessVerb.fw_fn : AccessVerb → MacFn
  | AccessVerb.block => MacFn.iptables_block_mac
  | AccessVerb.unblock => MacFn.iptables_unblock_mac
  | AccessVerb.allow => MacFn.iptables_allow_mac
  | AccessVerb.unallow => MacFn.iptables_unallow_mac
  | AccessVerb.trust => MacFn.iptables_trust_mac
  | AccessVerb.untrust => MacFn.iptables_untrust_mac

/-- The state-transition calls among the events. -/
def transitions : List Event → List Event
  | [] => []
  | Event.auth_client_authenticate ip mac :: rest =>
    Event.auth_client_authenticate ip mac :: transitions rest
  | Event.auth_client_deauthenticate ip mac :: rest =>
    Event.auth_client_deauthenticate ip mac :: transitions rest
  | _ :: rest => transitions rest

/-- The loop variables before the first entry: only the listening socket is
registered, no descriptor has been closed, and `fd` holds `fd0`. -/
def loopStart (fd0 : Int) : LoopState := ⟨fd0, 1, [], false, []⟩

/-- A readable entry on `fd`, for which `accept` would return `acc`. -/
def readable (fd acc : Int) : Ready := ⟨⟨EPOLLIN, fd⟩, acc, 0, false⟩

/-- Which of the two locks are held. -/
structure Held where
  client_list : Bool
  config : Bool
  deriving DecidableEq, Repr

/-- The locks held after an event. -/
def Held.step (h : Held) : Event → Held
  | Event.LOCK_CLIENT_LIST => { h with client_list := true }
  | Event.UNLOCK_CLIENT_LIST => { h with client_list := false }
  | Event.LOCK_CONFIG => { h with config := true }
  | Event.UNLOCK_CONFIG => { h with config := false }
  | _ => h

/-- The locks held after a sequence of events. -/
def heldAfter (h : Held) (tr : List Event) : Held := tr.foldl Held.step h

/-- Whether every event of the sequence passes `ok`, which is given the locks
held when the event happens. -/
def allUnder (ok : Held → Event → Bool) : Held → List Event → Bool
  | _, [] => true
  | h, e :: rest => ok h e && allUnder ok (h.step e) rest

/-- No lock is held. -/
def Held.free (h : Held) : Bool := !h.client_list && !h.config

/-- The firewall programming calls among the twelve MAC functions. -/
def MacFn.isFirewall : MacFn → Bool
  | MacFn.iptables_block_mac | MacFn.iptables_unblock_mac | MacFn.iptables_allow_mac
  | MacFn.iptables_unallow_mac | MacFn.iptables_trust_mac | MacFn.iptables_untrust_mac => true
  | _ => false

/-- The external effectors: firewall programming calls and the execution of the
authentication script. -/
def Event.isEffector : Event → Bool
  | Event.mac_call f _ => f.isFirewall
  | Event.execute _ _ _ _ _ _ _ => true
  | _ => false

/-- The state-transition calls. -/
def Event.isTransition : Event → Bool
  | Event.auth_client_authenticate _ _ => true
  | Event.auth_client_deauthenticate _ _ => true
  | _ => false

/-- The rule of the spec: no external effector is called while a lock is held. -/
def effectorsUnlocked (tr : List Event) : Bool :=
  allUnder (fun h e => !e.isEffector || h.free) ⟨false, false⟩ tr

/-- The acquisitions and releases of the two locks. -/
def Event.isLock : Event → Bool
  | Event.LOCK_CLIENT_LIST | Event.UNLOCK_CLIENT_LIST
  | Event.LOCK_CONFIG | Event.UNLOCK_CONFIG => true
  | _ => false

/-- The lock events of each handler of this file, as its source has them: the
config lock around the body of the six access-list handlers and of
`ndsctl_loglevel`, the client-list lock in `ndsctl_auth` and `ndsctl_deauth`,
none in `ndsctl_stop`; the reporters of `util.c` appear as one event. -/
def Invocation.lockSpan : Invocation → List Event
  | Invocation.ndsctl_status | Invocation.ndsctl_clients | Invocation.ndsctl_json
  | Invocation.ndsctl_stop => []
  | Invocation.ndsctl_auth _ | Invocation.ndsctl_deauth _ =>
    [Event.LOCK_CLIENT_LIST, Event.UNLOCK_CLIENT_LIST]
  | _ => [Event.LOCK_CONFIG, Event.UNLOCK_CONFIG]

/-! ## Lemmas on the read loop -/

theorem stateAfter_nil : stateAfter [] = initState := by
  simp [stateAfter, initState]

theorem scanLoop_spec (mid : List Nat) :
    ∀ (pre post : List Nat) (d : Bool),
      scanLoop mid.length pre.length (pre ++ mid ++ post, d)
        = (pre ++ mid.map nul ++ post, d || mid.any isTerm) := by
  induction mid with
  | nil => intro pre post d; simp [scanLoop]
  | cons x mid ih =>
    intro pre post d
    have hget : (pre ++ (x :: mid) ++ post).getD pre.length 0 = x := by
      rw [List.append_assoc, List.getD_eq_getElem?_getD,
        List.getElem?_append_right (le_refl _)]
      simp
    have hset : (pre ++ (x :: mid) ++ post).set pre.length 0 = (pre ++ [0]) ++ mid ++ post := by
      simp [List.set_append_right]
    have hsame : pre ++ (x :: mid) ++ post = (pre ++ [x]) ++ mid ++ post := by simp
    simp only [List.length_cons, scanLoop, hget]
    by_cases hx : x = 13 ∨ x = 10
    · rw [if_pos hx, hset]
      have := ih (pre ++ [0]) post true
      simp only [List.length_append, List.length_singleton] at this
      rw [this]
      simp [nul, isTerm, hx]
    · rw [if_neg hx, hsame]
      have := ih (pre ++ [x]) post d
      simp only [List.length_append, List.length_singleton] at this
      rw [this]
      simp [nul, isTerm, hx]

theorem writeAt_stateAfter (c b : List Nat) :
    writeAt (c.map nul ++ List.replicate (MAX_BUF - c.length) 0) c.length b
      = c.map nul ++ b ++ List.replicate (MAX_BUF - (c ++ b).length) 0 := by
  unfold writeAt
  have h1 : (c.map nul ++ List.replicate (MAX_BUF - c.length) 0).take c.length = c.map nul := by
    rw [List.take_append_of_le_length (by simp)]
    simp [List.take_of_length_le]
  have h2 : (c.map nul ++ List.replicate (MAX_BUF - c.length) 0).drop (c.length + b.length)
      = List.replicate (MAX_BUF - (c ++ b).length) 0 := by
    rw [List.drop_append_eq_append_drop]
    simp [List.drop_of_length_le, Nat.sub_sub]
  rw [h1, h2]

theorem loopBody_stateAfter (c b : List Nat)
    (hc : c.any isTerm = false) :
    loopBody (stateAfter c) (b.length : Int) b = stateAfter (c ++ b) := by
  simp only [loopBody, stateAfter, Int.toNat_ofNat, hc]
  rw [writeAt_stateAfter c b]
  have := scanLoop_spec b (c.map nul) (List.replicate (MAX_BUF - (c ++ b).length) 0) false
  simp only [List.length_map] at this
  rw [this]
  simp [hc]

theorem to_size_t_natCast (n : Nat) (h : n ≤ MAX_BUF) : to_size_t (n : Int) = n := by
  unfold MAX_BUF at h
  unfold to_size_t
  omega

theorem to_size_t_count (n : Nat) (h : n ≤ MAX_BUF) :
    to_size_t ((MAX_BUF : Int) - (n : Int)) = MAX_BUF - n := by
  unfold MAX_BUF at h ⊢
  unfold to_size_t
  omega

theorem loopCond_stateAfter (c : List Nat) (h : c.length ≤ MAX_BUF) :
    loopCond (stateAfter c) = (!c.any isTerm && decide (c.length < MAX_BUF - 1)) := by
  have := to_size_t_natCast c.length h
  simp only [loopCond, stateAfter, this]

theorem readLoop_stopped (c : List Nat) (conn : Conn) (fuel : Nat) (h : c.length ≤ MAX_BUF)
    (hs : stopped c) :
    readLoop (fuel + 1) conn (stateAfter c) = some (stateAfter c, conn) := by
  have hcond : loopCond (stateAfter c) = false := by
    rw [loopCond_stateAfter c h]
    rcases hs with hs | hs
    · simp [hs]
    · have : ¬ c.length < MAX_BUF - 1 := by omega
      simp [this]
  simp [readLoop, hcond]

/-- The read loop on a connection that delivers the non-empty pieces `chunks`, from
the state in which `c` has been read: if the bytes bring a terminator or fill
the buffer, the loop ends within one evaluation of its condition per piece
and one more, having read a prefix of the bytes delivered. -/
theorem readLoop_chunks (chunks : List (List Nat)) :
    ∀ (c : List Nat) (rest : Conn) (fuel : Nat),
      (∀ b ∈ chunks, b ≠ []) →
      c.length ≤ MAX_BUF →
      stopped (c ++ chunks.flatten) →
      chunks.length < fuel →
      ∃ m conn, readLoop fuel (chunks.map Arrival.data ++ rest) (stateAfter c)
          = some (stateAfter (c ++ chunks.flatten.take m), conn) ∧
        (c ++ chunks.flatten.take m).length ≤ MAX_BUF ∧
        stopped (c ++ chunks.flatten.take m) := by
  induction chunks with
  | nil =>
    intro c rest fuel _ hc hs hf
    obtain ⟨f, rfl⟩ : ∃ f, fuel = f + 1 := ⟨fuel - 1, by simp at hf; omega⟩
    refine ⟨0, rest, ?_, by simpa using hc, by simpa using hs⟩
    simp only [List.flatten_nil, List.take_nil, List.append_nil, List.map_nil, List.nil_append] at hs ⊢
    exact readLoop_stopped c rest f hc hs
  | cons b cs ih =>
    intro c rest fuel hne hc hs hf
    obtain ⟨f, rfl⟩ : ∃ f, fuel = f + 1 := ⟨fuel - 1, by simp at hf; omega⟩
    have hf' : cs.length < f := by simp at hf; omega
    by_cases hstop : stopped c
    · refine ⟨0, List.map Arrival.data (b :: cs) ++ rest, ?_, by simpa using hc, by simpa using hstop⟩
      simp only [List.take_zero, List.append_nil]
      exact readLoop_stopped c _ f hc hstop
    · have hterm : c.any isTerm = false := by
        cases h : c.any isTerm
        · rfl
        · exact absurd (Or.inl h) hstop
      have hlen : c.length < MAX_BUF - 1 := by
        by_contra hcon
        exact hstop (Or.inr (by omega))
      have hcond : loopCond (stateAfter c) = true := by
        rw [loopCond_stateAfter c hc]; simp [hterm, hlen]
      have hcount : to_size_t ((MAX_BUF : Int) - (stateAfter c).read_bytes) = MAX_BUF - c.length := by
        simp only [stateAfter]; exact to_size_t_count c.length hc
      by_cases hfit : b.length ≤ MAX_BUF - c.length
      · have hc' : (c ++ b).length ≤ MAX_BUF := by simp; omega
        have hs' : stopped ((c ++ b) ++ cs.flatten) := by simpa using hs
        obtain ⟨m, conn, hrun, hle, hst⟩ :=
          ih (c ++ b) rest f (fun x hx => hne x (List.mem_cons_of_mem _ hx)) hc' hs' hf'
        refine ⟨b.length + m, conn, ?_, ?_, ?_⟩
        · simp only [List.map_cons, List.cons_append, readLoop, hcond, if_true, hcount, read,
            if_pos hfit]
          rw [loopBody_stateAfter c b hterm, hrun]
          simp [List.take_append_eq_append_take, List.take_of_length_le]
        · simpa [List.take_append_eq_append_take, List.take_of_length_le] using hle
        · simpa [List.take_append_eq_append_take, List.take_of_length_le] using hst
      · have hlt : MAX_BUF - c.length < b.length := by omega
        have htl : (b.take (MAX_BUF - c.length)).length = MAX_BUF - c.length := by
          simp; omega
        have hfull : (c ++ b.take (MAX_BUF - c.length)).length = MAX_BUF := by
          rw [List.length_append, htl]; omega
        have hst : stopped (c ++ b.take (MAX_BUF - c.length)) := Or.inr (by rw [hfull]; omega)
        obtain ⟨g, rfl⟩ : ∃ g, f = g + 1 := ⟨f - 1, by omega⟩
        have htake : (b :: cs).flatten.take (MAX_BUF - c.length) = b.take (MAX_BUF - c.length) := by
          simp only [List.flatten_cons]
          rw [List.take_append_of_le_length (by omega)]
        refine ⟨MAX_BUF - c.length, Arrival.data (b.drop (MAX_BUF - c.length)) ::
          (List.map Arrival.data cs ++ rest), ?_, ?_, ?_⟩
        · rw [htake]
          have hbody : loopBody (stateAfter c) ((MAX_BUF - c.length : Nat) : Int)
              (b.take (MAX_BUF - c.length)) = stateAfter (c ++ b.take (MAX_BUF - c.length)) := by
            have := loopBody_stateAfter c (b.take (MAX_BUF - c.length)) hterm
            rw [htl] at this
            exact this
          rw [List.map_cons, List.cons_append, readLoop]
          simp only [hcond, if_true, hcount, read, if_neg hfit]
          rw [hbody]
          exact readLoop_stopped _ _ g (le_of_eq hfull) hst
        · rw [htake]; exact le_of_eq hfull
        · rw [htake]; exact hst

/-! ## Lemmas on `strncmp` and the dispatch -/

theorem strncmp_eq_zero_iff (v : List Nat) :
    ∀ (s : List Nat) (n : Nat), n = v.length → (∀ x ∈ v, x ≠ 0) →
      (strncmp s v n = 0 ↔ v <+: s) := by
  induction v with
  | nil => intro s n hn _; subst hn; simp [strncmp]
  | cons x v ih =>
    intro s n hn hv
    subst hn
    have hx : x ≠ 0 := hv x (List.mem_cons_self _ _)
    have hv' : ∀ y ∈ v, y ≠ 0 := fun y hy => hv y (List.mem_cons_of_mem _ hy)
    cases s with
    | nil =>
      simp only [List.length_cons, strncmp, List.headD_nil, List.headD_cons]
      have h0 : (0 : Nat) ≠ x := fun h => hx h.symm
      rw [if_pos h0]
      simp only [List.prefix_nil, reduceCtorEq, iff_false]
      omega
    | cons y s =>
      simp only [List.length_cons, strncmp, List.headD_cons, List.tail_cons]
      by_cases hyx : y = x
      · subst hyx
        simp only [ne_eq, not_true_eq_false, if_false, hx]
        rw [ih s v.length rfl hv']
        simp [List.cons_prefix_cons]
      · rw [if_pos hyx]
        simp only [List.cons_prefix_cons, hyx, false_and, iff_false]
        omega

theorem bytes_status : bytes "status" = [115, 116, 97, 116, 117, 115] := by decide

theorem bytes_clients : bytes "clients" = [99, 108, 105, 101, 110, 116, 115] := by decide

theorem bytes_json : bytes "json" = [106, 115, 111, 110] := by decide

theorem bytes_stop : bytes "stop" = [115, 116, 111, 112] := by decide

theorem bytes_block : bytes "block" = [98, 108, 111, 99, 107] := by decide

theorem bytes_unblock : bytes "unblock" = [117, 110, 98, 108, 111, 99, 107] := by decide

theorem bytes_allow : bytes "allow" = [97, 108, 108, 111, 119] := by decide

theorem bytes_unallow : bytes "unallow" = [117, 110, 97, 108, 108, 111, 119] := by decide

theorem bytes_trust : bytes "trust" = [116, 114, 117, 115, 116] := by decide

theorem bytes_untrust : bytes "untrust" = [117, 110, 116, 114, 117, 115, 116] := by decide

theorem bytes_auth : bytes "auth" = [97, 117, 116, 104] := by decide

theorem bytes_deauth : bytes "deauth" = [100, 101, 97, 117, 116, 104] := by decide

theorem bytes_loglevel : bytes "loglevel" = [108, 111, 103, 108, 101, 118, 101, 108] := by decide

/-- The dispatch written with prefix tests in place of `strncmp`. -/
theorem dispatch_by_prefixes (request : List Nat) :
    dispatch request =
      if bytes "status" <+: request then some Invocation.ndsctl_status
      else if bytes "clients" <+: request then some Invocation.ndsctl_clients
      else if bytes "json" <+: request then some Invocation.ndsctl_json
      else if bytes "stop" <+: request then some Invocation.ndsctl_stop
      else if bytes "block" <+: request then
        some (Invocation.ndsctl_block (cstr (request.drop 6)))
      else if bytes "unblock" <+: request then
        some (Invocation.ndsctl_unblock (cstr (request.drop 8)))
      else if bytes "allow" <+: request then
        some (Invocation.ndsctl_allow (cstr (request.drop 6)))
      else if bytes "unallow" <+: request then
        some (Invocation.ndsctl_unallow (cstr (request.drop 8)))
      else if bytes "trust" <+: request then
        some (Invocation.ndsctl_trust (cstr (request.drop 6)))
      else if bytes "untrust" <+: request then
        some (Invocation.ndsctl_untrust (cstr (request.drop 8)))
      else if bytes "auth" <+: request then
        some (Invocation.ndsctl_auth (cstr (request.drop 5)))
      else if bytes "deauth" <+: request then
        some (Invocation.ndsctl_deauth (cstr (request.drop 7)))
      else if bytes "loglevel" <+: request then
        some (Invocation.ndsctl_loglevel (cstr (request.drop 9)))
      else none := by
  unfold dispatch
  simp only [strncmp_eq_zero_iff (bytes "status") request 6 (by decide) (by decide),
    strncmp_eq_zero_iff (bytes "clients") request 7 (by decide) (by decide),
    strncmp_eq_zero_iff (bytes "json") request 4 (by decide) (by decide),
    strncmp_eq_zero_iff (bytes "stop") request 4 (by decide) (by decide),
    strncmp_eq_zero_iff (bytes "block") request 5 (by decide) (by decide),
    strncmp_eq_zero_iff (bytes "unblock") request 7 (by decide) (by decide),
    strncmp_eq_zero_iff (bytes "allow") request 5 (by decide) (by decide),
    strncmp_eq_zero_iff (bytes "unallow") request 7 (by decide) (by decide),
    strncmp_eq_zero_iff (bytes "trust") request 5 (by decide) (by decide),
    strncmp_eq_zero_iff (bytes "untrust") request 7 (by decide) (by decide),
    strncmp_eq_zero_iff (bytes "auth") request 4 (by decide) (by decide),
    strncmp_eq_zero_iff (bytes "deauth") request 6 (by decide) (by decide),
    strncmp_eq_zero_iff (bytes "loglevel") request 8 (by decide) (by decide)]

theorem dispatch_none (request : List Nat) (h : ∀ w ∈ verbs, ¬ w <+: request) :
    dispatch request = none := by
  rw [dispatch_by_prefixes]
  simp only [verbs, List.mem_cons, List.mem_singleton, forall_eq_or_imp, forall_eq,
    List.not_mem_nil, false_imp_iff, implies_true, and_true] at h
  obtain ⟨h1, h2, h3, h4, h5, h6, h7, h8, h9, h10, h11, h12, h13⟩ := h
  simp only [h1, h2, h3, h4, h5, h6, h7, h8, h9, h10, h11, h12, h13, if_false]

theorem prefix_of_request (w : List Nat) :
    ∀ (d : List Nat) (k : Nat), (∀ x ∈ w, x ≠ 0) →
      w <+: d.map nul ++ List.replicate k 0 → w <+: d := by
  induction w with
  | nil => intro d k _ _; exact List.nil_prefix
  | cons x w ih =>
    intro d k hw hp
    have hx : x ≠ 0 := hw x (List.mem_cons_self _ _)
    have hw' : ∀ y ∈ w, y ≠ 0 := fun y hy => hw y (List.mem_cons_of_mem _ hy)
    cases d with
    | nil =>
      cases k with
      | zero => simp at hp
      | succ k =>
        simp only [List.map_nil, List.nil_append, List.replicate_succ, List.cons_prefix_cons] at hp
        exact absurd hp.1 hx
    | cons y d =>
      simp only [List.map_cons, List.cons_append, List.cons_prefix_cons] at hp
      obtain ⟨hxy, hp⟩ := hp
      have hy : y = x := by
        unfold nul at hxy
        split at hxy
        · exact absurd hxy hx
        · exact hxy.symm
      rw [hy, List.cons_prefix_cons]
      exact ⟨rfl, ih d k hw' hp⟩

theorem prefix_of_line (w : List Nat) :
    ∀ (line tail : List Nat) (t : Nat), t ∉ w → w <+: line ++ t :: tail → w <+: line := by
  induction w with
  | nil => intro line tail t _ _; exact List.nil_prefix
  | cons x w ih =>
    intro line tail t ht hp
    cases line with
    | nil =>
      simp only [List.nil_append, List.cons_prefix_cons] at hp
      exact absurd hp.1.symm (fun h => ht (h ▸ List.mem_cons_self _ _))
    | cons y line =>
      simp only [List.cons_append, List.cons_prefix_cons] at hp ⊢
      exact ⟨hp.1, ih line tail t (fun h => ht (List.mem_cons_of_mem _ h)) hp.2⟩

theorem verbs_clean : ∀ w ∈ verbs, ∀ x ∈ w, x ≠ 0 ∧ x ≠ 13 ∧ x ≠ 10 := by decide

theorem map_nul_clean (l : List Nat) (h : ∀ x ∈ l, x ≠ 13 ∧ x ≠ 10) : l.map nul = l := by
  induction l with
  | nil => rfl
  | cons x l ih =>
    have hx := h x (List.mem_cons_self _ _)
    simp only [List.map_cons, nul, hx.1, hx.2, or_self, if_false]
    rw [ih (fun y hy => h y (List.mem_cons_of_mem _ hy))]

theorem any_isTerm_clean (l : List Nat) (h : ∀ x ∈ l, x ≠ 13 ∧ x ≠ 10) :
    l.any isTerm = false := by
  induction l with
  | nil => rfl
  | cons x l ih =>
    have hx := h x (List.mem_cons_self _ _)
    simp only [List.any_cons, isTerm, hx.1, hx.2, or_self, decide_False, Bool.false_or]
    exact ih (fun y hy => h y (List.mem_cons_of_mem _ hy))

theorem cstr_append_zero (a r : List Nat) (h : ∀ x ∈ a, x ≠ 0) : cstr (a ++ 0 :: r) = a := by
  induction a with
  | nil => simp [cstr]
  | cons x a ih =>
    have hx := h x (List.mem_cons_self _ _)
    have := ih (fun y hy => h y (List.mem_cons_of_mem _ hy))
    simp only [cstr, List.cons_append, List.takeWhile_cons, bne_iff_ne, ne_eq, hx,
      not_false_eq_true, decide_True, if_true] at this ⊢
    rw [this]

theorem writes_epilogue_nil (s : ReadState) : writes (epilogue s []) = [] := by
  unfold epilogue
  cases s.done <;> simp [writes]

theorem getLast_epilogue_nil (s : ReadState) : (epilogue s []).getLast? = some Event.fclose := by
  unfold epilogue
  cases s.done <;> simp

/-! ## The claims on reading and dispatching -/

/-- Unknown verbs when every `read` succeeds: when the bytes delivered hold a
line closed by a carriage return or line feed and none of the thirteen verbs
is a prefix of that line, `ndsctl_handler` ends, calls no handler, writes nothing
and closes the connection, however the bytes are split into non-empty reads. -/
theorem ndsctl_handler_unknown_verb (E : Collab) (clients : List t_client)
    (chunks : List (List Nat)) (line tail : List Nat) (t : Nat) (rest : Conn) (fuel : Nat)
    (hne : ∀ b ∈ chunks, b ≠ [])
    (hdata : chunks.flatten = line ++ t :: tail)
    (ht : t = 13 ∨ t = 10)
    (hverb : ∀ w ∈ verbs, ¬ w <+: line)
    (hfuel : chunks.length < fuel) :
    ∃ o, ndsctl_handler E clients fuel (chunks.map Arrival.data ++ rest) = some o ∧
      o.invoked = none ∧ writes o.trace = [] ∧ o.trace.getLast? = some Event.fclose ∧
      o.clients = clients := by
  have hstop : stopped ([] ++ chunks.flatten) := by
    left
    rw [List.nil_append, hdata]
    simp [isTerm, ht]
  obtain ⟨m, conn, hrun, -, -⟩ :=
    readLoop_chunks chunks [] rest fuel hne (Nat.zero_le _) hstop hfuel
  rw [stateAfter_nil, List.nil_append] at hrun
  have hnone : dispatch (stateAfter (chunks.flatten.take m)).request = none := by
    apply dispatch_none
    intro w hw hp
    have hclean := verbs_clean w hw
    have h1 : w <+: chunks.flatten.take m :=
      prefix_of_request w _ _ (fun x hx => (hclean x hx).1) hp
    have h2 : w <+: line ++ t :: tail := hdata ▸ h1.trans (List.take_prefix _ _)
    have ht' : t ∉ w := by
      intro hmem
      have := hclean t hmem
      omega
    exact hverb w hw (prefix_of_line w line tail t ht' h2)
  refine ⟨⟨stateAfter (chunks.flatten.take m), none,
    epilogue (stateAfter (chunks.flatten.take m)) [], clients⟩, ?_, rfl,
    writes_epilogue_nil _, getLast_epilogue_nil _, rfl⟩
  simp only [ndsctl_handler, hrun, hnone]

theorem ArgVerb.name_clean (v : ArgVerb) : ∀ x ∈ v.name, x ≠ 13 ∧ x ≠ 10 := by
  cases v <;> decide

theorem ArgVerb.dispatch_request (v : ArgVerb) (a r : List Nat) (ha : ∀ x ∈ a, x ≠ 0) :
    dispatch (v.name ++ 32 :: (a ++ 0 :: r)) = some (v.invocation a) := by
  rw [dispatch_by_prefixes]
  cases v <;>
    simp [ArgVerb.name, ArgVerb.invocation, bytes_status, bytes_clients, bytes_json, bytes_stop,
      bytes_block, bytes_unblock, bytes_allow, bytes_unallow, bytes_trust, bytes_untrust,
      bytes_auth, bytes_deauth, bytes_loglevel, List.cons_prefix_cons, cstr_append_zero a r ha]

theorem ArgVerb.run_no_exit (v : ArgVerb) (E : Collab) (clients : List t_client) (a : List Nat) :
    Event.pthread_exit ∉ ((v.invocation a).run E clients).1 := by
  cases v <;>
    simp only [ArgVerb.invocation, Invocation.run, Ndsctl.ndsctl_block, Ndsctl.ndsctl_unblock,
      Ndsctl.ndsctl_allow, Ndsctl.ndsctl_unallow, Ndsctl.ndsctl_trust, Ndsctl.ndsctl_untrust,
      Ndsctl.ndsctl_loglevel, Ndsctl.ndsctl_auth, Ndsctl.ndsctl_deauth, mac_handler] <;>
    (repeat' split) <;> simp

/-- Claim C1: for an argument-taking verb `v` and an argument `a` free of carriage
return, line feed and NUL with `len(v) + 1 + len(a) ≤ 4094`, when the connection
delivers `v`, a space, `a` and a line feed, split into non-empty reads in any
way, `ndsctl_handler` ends and calls exactly the handler of `v` on exactly `a`;
what is visible is what that handler does, followed by `fclose`. -/
theorem ndsctl_handler_argument_verb (E : Collab) (clients : List t_client) (v : ArgVerb)
    (a : List Nat) (chunks : List (List Nat)) (rest : Conn) (fuel : Nat)
    (ha : ∀ x ∈ a, x ≠ 13 ∧ x ≠ 10 ∧ x ≠ 0)
    (hlen : v.name.length + 1 + a.length ≤ 4094)
    (hne : ∀ b ∈ chunks, b ≠ [])
    (hdata : chunks.flatten = v.name ++ [32] ++ a ++ [10])
    (hfuel : chunks.length < fuel) :
    ∃ o, ndsctl_handler E clients fuel (chunks.map Arrival.data ++ rest) = some o ∧
      o.invoked = some (v.invocation a) ∧
      o.trace = ((v.invocation a).run E clients).1 ++ [Event.fclose] ∧
      o.clients = ((v.invocation a).run E clients).2 := by
  have hpre : ∀ x ∈ v.name ++ [32] ++ a, x ≠ 13 ∧ x ≠ 10 := by
    intro x hx
    simp only [List.mem_append, List.mem_singleton] at hx
    rcases hx with (hx | hx) | hx
    · exact v.name_clean x hx
    · subst hx; decide
    · exact ⟨(ha x hx).1, (ha x hx).2.1⟩
  have hprelen : (v.name ++ [32] ++ a).length ≤ 4094 := by
    simp only [List.length_append, List.length_singleton]; omega
  have hstop : stopped ([] ++ chunks.flatten) := by
    left
    rw [List.nil_append, hdata]
    simp [isTerm]
  obtain ⟨m, conn, hrun, -, hst⟩ :=
    readLoop_chunks chunks [] rest fuel hne (Nat.zero_le _) hstop hfuel
  rw [stateAfter_nil, List.nil_append] at hrun
  rw [List.nil_append] at hst
  have hm : chunks.flatten.take m = chunks.flatten := by
    apply List.take_of_length_le
    by_contra hcon
    have hmle : m ≤ (v.name ++ [32] ++ a).length := by
      rw [hdata] at hcon
      simp only [List.length_append, List.length_singleton] at hcon ⊢
      omega
    have htake : chunks.flatten.take m = (v.name ++ [32] ++ a).take m := by
      rw [hdata, List.take_append_of_le_length hmle]
    rcases hst with hst | hst
    · rw [htake] at hst
      have := any_isTerm_clean ((v.name ++ [32] ++ a).take m)
        (fun x hx => hpre x (List.mem_of_mem_take hx))
      rw [this] at hst
      exact absurd hst (by decide)
    · rw [htake] at hst
      have : ((v.name ++ [32] ++ a).take m).length ≤ 4094 :=
        le_trans (List.length_take_le' _ _) hprelen
      unfold MAX_BUF at hst
      omega
  rw [hm] at hrun
  have hreq : (stateAfter chunks.flatten).request
      = v.name ++ 32 :: (a ++ 0 :: List.replicate (MAX_BUF - chunks.flatten.length) 0) := by
    simp only [stateAfter, hdata, List.map_append, map_nul_clean _ hpre]
    simp [nul]
  have hdone : (stateAfter chunks.flatten).done = true := by
    simp [stateAfter, hdata, isTerm]
  have hdisp := v.dispatch_request a (List.replicate (MAX_BUF - chunks.flatten.length) 0)
    (fun x hx => (ha x hx).2.2)
  rw [← hreq] at hdisp
  refine ⟨⟨stateAfter chunks.flatten, some (v.invocation a),
    epilogue (stateAfter chunks.flatten) ((v.invocation a).run E clients).1,
    ((v.invocation a).run E clients).2⟩, ?_, rfl, ?_, rfl⟩
  · simp only [ndsctl_handler, hrun, hdisp]
  · simp only [epilogue, if_neg (v.run_no_exit E clients a), hdone, if_true, List.append_nil]

/-- Claim C1 at `block 00:11:22:33:44:55`, delivered in two reads. -/
theorem ndsctl_handler_argument_verb_witness :
    ∃ o, ndsctl_handler exampleCollab [] 3
        ([bytes "blo", bytes "ck 00:11:22:33:44:55\n"].map Arrival.data ++ []) = some o ∧
      o.invoked = some (ArgVerb.block.invocation (bytes "00:11:22:33:44:55")) ∧
      o.trace = ((ArgVerb.block.invocation (bytes "00:11:22:33:44:55")).run exampleCollab []).1
        ++ [Event.fclose] ∧
      o.clients = ((ArgVerb.block.invocation (bytes "00:11:22:33:44:55")).run exampleCollab []).2 :=
  ndsctl_handler_argument_verb exampleCollab [] ArgVerb.block (bytes "00:11:22:33:44:55")
    [bytes "blo", bytes "ck 00:11:22:33:44:55\n"] [] 3
    (by decide) (by decide) (by decide) (by decide) (by decide)

/-- The line `bogus`, delivered in two reads: no handler, no response. -/
theorem ndsctl_handler_unknown_verb_witness :
    ∃ o, ndsctl_handler exampleCollab [] 3
        ([bytes "bo", bytes "gus\n"].map Arrival.data ++ []) = some o ∧
      o.invoked = none ∧ writes o.trace = [] ∧ o.trace.getLast? = some Event.fclose ∧
      o.clients = [] :=
  ndsctl_handler_unknown_verb exampleCollab [] [bytes "bo", bytes "gus\n"] (bytes "bogus") []
    10 [] 3 (by decide) (by decide) (by decide) (by decide) (by decide)

/-- The read loop on a request that fills the buffer up to its last byte and
has no terminator: the dispatch runs on it all the same, the handler of the
verb it begins with is called, and only afterwards the request is logged as
invalid. -/
theorem ndsctl_handler_unterminated (E : Collab) (clients : List t_client) (v : ArgVerb)
    (a : List Nat) (chunks : List (List Nat)) (rest : Conn) (fuel : Nat)
    (ha : ∀ x ∈ a, x ≠ 13 ∧ x ≠ 10 ∧ x ≠ 0)
    (hlen : v.name.length + 1 + a.length = 4095)
    (hne : ∀ b ∈ chunks, b ≠ [])
    (hdata : chunks.flatten = v.name ++ [32] ++ a)
    (hfuel : chunks.length < fuel) :
    ∃ o, ndsctl_handler E clients fuel (chunks.map Arrival.data ++ rest) = some o ∧
      o.final.done = false ∧
      o.invoked = some (v.invocation a) ∧
      o.trace = ((v.invocation a).run E clients).1 ++
        [Event.log_err "Invalid ndsctl request.", Event.fclose] := by
  have hpre : ∀ x ∈ v.name ++ [32] ++ a, x ≠ 13 ∧ x ≠ 10 := by
    intro x hx
    simp only [List.mem_append, List.mem_singleton] at hx
    rcases hx with (hx | hx) | hx
    · exact v.name_clean x hx
    · subst hx; decide
    · exact ⟨(ha x hx).1, (ha x hx).2.1⟩
  have hdlen : chunks.flatten.length = 4095 := by
    rw [hdata]; simp only [List.length_append, List.length_singleton]; omega
  have hstop : stopped ([] ++ chunks.flatten) := by
    right
    rw [List.nil_append, hdlen]; unfold MAX_BUF; omega
  obtain ⟨m, conn, hrun, -, hst⟩ :=
    readLoop_chunks chunks [] rest fuel hne (Nat.zero_le _) hstop hfuel
  rw [stateAfter_nil, List.nil_append] at hrun
  rw [List.nil_append] at hst
  have hm : chunks.flatten.take m = chunks.flatten := by
    apply List.take_of_length_le
    rcases hst with hst | hst
    · have := any_isTerm_clean (chunks.flatten.take m)
        (fun x hx => hpre x (hdata ▸ List.mem_of_mem_take hx))
      rw [this] at hst
      exact absurd hst (by decide)
    · have := List.length_take_le' m chunks.flatten
      have h2 : (chunks.flatten.take m).length = min m chunks.flatten.length := List.length_take _ _
      unfold MAX_BUF at hst
      omega
  rw [hm] at hrun
  have hreq : (stateAfter chunks.flatten).request = v.name ++ 32 :: (a ++ 0 :: []) := by
    simp only [stateAfter, hdlen, MAX_BUF]
    rw [hdata, map_nul_clean _ hpre]
    simp
  have hdone : (stateAfter chunks.flatten).done = false := by
    simp only [stateAfter]
    rw [hdata]
    exact any_isTerm_clean _ hpre
  have hdisp := v.dispatch_request a [] (fun x hx => (ha x hx).2.2)
  rw [← hreq] at hdisp
  refine ⟨⟨stateAfter chunks.flatten, some (v.invocation a),
    epilogue (stateAfter chunks.flatten) ((v.invocation a).run E clients).1,
    ((v.invocation a).run E clients).2⟩, ?_, hdone, rfl, ?_⟩
  · simp only [ndsctl_handler, hrun, hdisp]
  · simp only [epilogue, if_neg (v.run_no_exit E clients a), hdone, Bool.false_eq_true, if_false,
      List.append_assoc, List.singleton_append]

/-- Claim C2, the code at a failing input: 4095 bytes without a terminator,
`block`, a space and 4089 times `x`, arrive in one read.  The handler
`ndsctl_block` is called on the 4089 bytes and `Yes` is written, and the request
is logged as invalid after that. -/
theorem ndsctl_handler_overflow_runs_handler :
    ∃ o, ndsctl_handler exampleCollab [] 2
        ([bytes "block " ++ List.replicate 4089 120].map Arrival.data ++ []) = some o ∧
      o.final.done = false ∧
      o.invoked = some (Invocation.ndsctl_block (List.replicate 4089 120)) ∧
      o.trace = [Event.LOCK_CONFIG,
        Event.mac_call MacFn.add_to_blocked_mac_list (List.replicate 4089 120),
        Event.mac_call MacFn.iptables_block_mac (List.replicate 4089 120),
        Event.fprintf "Yes", Event.UNLOCK_CONFIG,
        Event.log_err "Invalid ndsctl request.", Event.fclose] :=
  ndsctl_handler_unterminated exampleCollab [] ArgVerb.block (List.replicate 4089 120)
    [bytes "block " ++ List.replicate 4089 120] [] 2
    (by intro x hx; rw [List.mem_replicate] at hx; omega)
    (by rw [List.length_replicate]; decide)
    (by
      intro b hb h
      rw [List.mem_singleton] at hb
      have hl := congrArg List.length (hb.symm.trans h)
      rw [List.length_append, List.length_replicate] at hl
      revert hl
      decide)
    (by
      have h : bytes "block " = bytes "block" ++ [32] := by decide
      simp only [List.flatten_cons, List.flatten_nil, List.append_nil, h]
      rfl)
    (by decide)

/-- Claim C7, the code at a failing input: the peer sends `X`, a `read` fails
and returns `-1`, then `block 00:11:22:33:44:55` and a line feed arrive.  No
verb is a prefix of the line sent, `Xblock 00:11:22:33:44:55`.  The failed
read takes 1 off `read_bytes`, the next read overwrites the `X`, and
`ndsctl_block` is called on the MAC and `Yes` is written. -/
theorem ndsctl_handler_failed_read_runs_handler :
    (∀ w ∈ verbs, ¬ w <+: bytes "Xblock 00:11:22:33:44:55") ∧
      (ndsctl_handler exampleCollab [] 4
          [Arrival.data (bytes "X"), Arrival.error,
            Arrival.data (bytes "block 00:11:22:33:44:55\n")]).map
        (fun o => (o.final.done, o.invoked, o.trace)) =
        some (true, some (Invocation.ndsctl_block (bytes "00:11:22:33:44:55")),
          [Event.LOCK_CONFIG,
            Event.mac_call MacFn.add_to_blocked_mac_list (bytes "00:11:22:33:44:55"),
            Event.mac_call MacFn.iptables_block_mac (bytes "00:11:22:33:44:55"),
            Event.fprintf "Yes", Event.UNLOCK_CONFIG, Event.fclose]) := by
  constructor
  · decide
  · rfl

/-- A read that returns 0 leaves the variables of the loop as they were. -/
theorem loopBody_zero (s : ReadState) : loopBody s 0 [] = s := by
  simp [loopBody, writeAt, scanLoop]

/-- Once the peer has closed, the loop does not end from a state in which its
condition holds. -/
theorem readLoop_closed (s : ReadState) (h : loopCond s = true) :
    ∀ fuel, readLoop fuel [] s = none := by
  intro fuel
  induction fuel with
  | zero => rfl
  | succ n ih => simp only [readLoop, h, if_true, read, loopBody_zero, ih]

/-- Claim C9, the code at a failing input: the peer sends `status` without a
terminator and closes.  Every further `read` returns 0, the loop goes on
reading, and `ndsctl_handler` does not return, whatever the number of
evaluations of the condition allowed. -/
theorem ndsctl_handler_peer_closed (E : Collab) (clients : List t_client) (fuel : Nat) :
    ndsctl_handler E clients fuel [Arrival.data (bytes "status")] = none := by
  have hcond : loopCond (stateAfter (bytes "status")) = true := by
    rw [loopCond_stateAfter _ (by decide)]; decide
  cases fuel with
  | zero => rfl
  | succ n =>
    have hcond0 : loopCond initState = true := by
      rw [← stateAfter_nil, loopCond_stateAfter _ (by decide)]; decide
    have hcount : to_size_t ((MAX_BUF : Int) - initState.read_bytes) = MAX_BUF := by decide
    have hbody : loopBody initState ((bytes "status").length : Int) (bytes "status")
        = stateAfter (bytes "status") := by
      rw [← stateAfter_nil]
      exact loopBody_stateAfter [] (bytes "status") (by decide)
    have hfit : (bytes "status").length ≤ MAX_BUF := by decide
    simp only [ndsctl_handler, readLoop, hcond0, if_true, hcount, read, if_pos hfit, hbody,
      readLoop_closed _ hcond n]

/-! ## The access-list handlers -/

theorem response_single (x : String) : String.join [x] = x := by
  simp [String.join]

/-- Claim C3: each of the six access-list handlers writes exactly once, and the
response is `Yes` when the list mutation and the firewall call of its verb both
return 0 and `No` when either returns something else. -/
theorem access_list_handler_response (v : AccessVerb) (E : Collab) (arg : List Nat) :
    writes (v.handler E arg) =
        [if E.mac_fn v.list_fn arg = 0 ∧ E.mac_fn v.fw_fn arg = 0 then "Yes" else "No"] ∧
      response (v.handler E arg) =
        (if E.mac_fn v.list_fn arg = 0 ∧ E.mac_fn v.fw_fn arg = 0 then "Yes" else "No") := by
  have h : writes (v.handler E arg) =
      [if E.mac_fn v.list_fn arg = 0 ∧ E.mac_fn v.fw_fn arg = 0 then "Yes" else "No"] := by
    cases v <;>
      simp only [AccessVerb.handler, AccessVerb.list_fn, AccessVerb.fw_fn, ndsctl_block,
        ndsctl_unblock, ndsctl_allow, ndsctl_unallow, ndsctl_trust, ndsctl_untrust,
        mac_handler] <;>
      split <;> (try split) <;> simp_all [writes]
  exact ⟨h, by rw [response, h, response_single]⟩

/-! ## `ndsctl_auth` and `ndsctl_deauth` -/

/-- Claim C4: when `find_client` resolves the identifier to a client that is not
marked authenticated, `ndsctl_auth` leaves that client with `session_start`
equal to the time `t` it read and `session_end` equal to `t + session_timeout`
for a non-zero timeout and to 0 for a zero one, changes nothing else in the
client list, and writes `Yes`. -/
theorem ndsctl_auth_stamps_session (E : Collab) (clients : List t_client) (arg : List Nat)
    (p : Nat) (c : t_client)
    (hfind : find_client E arg = some p)
    (hc : clients[p]? = some c)
    (hstate : c.fw_connection_state ≠ E.FW_MARK_AUTHENTICATED) :
    (ndsctl_auth E clients arg).2 =
        clients.set p { c with
          session_start := E.time
          session_end := if E.session_timeout ≠ 0 then E.time + E.session_timeout else 0 } ∧
      writes (ndsctl_auth E clients arg).1 = ["Yes"] := by
  have hget : clients.getD p default = c := by
    rw [List.getD_eq_getElem?_getD, hc]; rfl
  constructor
  · simp only [ndsctl_auth, hfind, hget, if_pos hstate]
  · simp only [ndsctl_auth, hfind, hget, if_pos hstate]
    cases E.bin_auth <;> simp [writes]

/-- Claim C4 at the client `10.0.0.5` with a timeout of 3600 and the time 1000. -/
theorem ndsctl_auth_stamps_session_witness :
    (ndsctl_auth exampleCollab [exampleClient 1] (bytes "10.0.0.5")).2 =
        [exampleClient 1].set 0 { exampleClient 1 with
          session_start := exampleCollab.time
          session_end :=
            if exampleCollab.session_timeout ≠ 0 then
              exampleCollab.time + exampleCollab.session_timeout
            else 0 } ∧
      writes (ndsctl_auth exampleCollab [exampleClient 1] (bytes "10.0.0.5")).1 = ["Yes"] :=
  ndsctl_auth_stamps_session exampleCollab [exampleClient 1] (bytes "10.0.0.5") 0
    (exampleClient 1) (by decide) (by decide) (by decide)

/-- The IP and MAC that `ndsctl_auth` and `ndsctl_deauth` pass to the state
transition, on every input: the contents of their automatic arrays `ip` and
`mac`, which nothing has assigned, whatever client `find_client` resolves the
identifier to. -/
theorem auth_passes_unassigned_arrays (E : Collab) (clients : List t_client) (arg : List Nat) :
    transitions (ndsctl_auth E clients arg).1 =
        (if (find_client E arg).isSome then
          [Event.auth_client_authenticate E.stack_ip E.stack_mac] else []) ∧
      transitions (ndsctl_deauth E clients arg).1 =
        (if (find_client E arg).isSome then
          [Event.auth_client_deauthenticate E.stack_ip E.stack_mac] else []) := by
  constructor
  · unfold ndsctl_auth
    cases find_client E arg with
    | none => simp [transitions]
    | some p =>
      simp only [Option.isSome_some, if_true]
      split <;> cases E.bin_auth <;> simp [transitions]
  · unfold ndsctl_deauth
    cases find_client E arg with
    | none => simp [transitions]
    | some p => cases E.bin_auth <;> simp [transitions]

/-- Claim C5, the code at a failing input: `auth 10.0.0.5` and `deauth 10.0.0.5`
for the known client with IP `10.0.0.5` and MAC `00:11:22:33:44:55`, while the
automatic arrays hold `junk`.  The state transitions are called on `junk`,
`junk`, not on the client's IP and MAC. -/
theorem auth_deauth_wrong_identity :
    find_client exampleCollab (bytes "10.0.0.5") = some 0 ∧
      [exampleClient 1][0]? = some (exampleClient 1) ∧
      transitions (ndsctl_auth exampleCollab [exampleClient 1] (bytes "10.0.0.5")).1 =
        [Event.auth_client_authenticate (bytes "junk") (bytes "junk")] ∧
      transitions (ndsctl_deauth exampleCollab [exampleClient 1] (bytes "10.0.0.5")).1 =
        [Event.auth_client_deauthenticate (bytes "junk") (bytes "junk")] ∧
      (exampleClient 1).ip ≠ bytes "junk" ∧ (exampleClient 1).mac ≠ bytes "junk" := by
  decide

/-- Claim C6 as stated fails: for the known client already marked authenticated,
`ndsctl_auth` makes a state-transition call. -/
theorem ndsctl_auth_authenticated_calls_transition :
    find_client exampleCollab (bytes "10.0.0.5") = some 0 ∧
      [exampleClient 2][0]? = some (exampleClient 2) ∧
      (exampleClient 2).fw_connection_state = exampleCollab.FW_MARK_AUTHENTICATED ∧
      transitions (ndsctl_auth exampleCollab [exampleClient 2] (bytes "10.0.0.5")).1 ≠ [] := by
  decide

/-- Claim C6 as amended: when `find_client` resolves the identifier to a client
already marked authenticated, `ndsctl_auth` takes and releases the
client-list lock, then makes one state-transition call, and writes `Yes`; the
client list, and with it the client's `session_start` and `session_end`, is
unchanged, and the authentication script is not executed. -/
theorem ndsctl_auth_authenticated (E : Collab) (clients : List t_client) (arg : List Nat)
    (p : Nat) (c : t_client)
    (hfind : find_client E arg = some p)
    (hc : clients[p]? = some c)
    (hstate : c.fw_connection_state = E.FW_MARK_AUTHENTICATED) :
    ∃ ip mac, ndsctl_auth E clients arg =
      ([Event.LOCK_CLIENT_LIST, Event.UNLOCK_CLIENT_LIST,
        Event.auth_client_authenticate ip mac, Event.fprintf "Yes"],
       clients) := by
  have hget : clients.getD p default = c := by
    rw [List.getD_eq_getElem?_getD, hc]; rfl
  exact ⟨E.stack_ip, E.stack_mac, by
    simp only [ndsctl_auth, hfind, hget, hstate, ne_eq, not_true_eq_false, if_false]⟩

/-- Claim C6 as amended, at the known client marked authenticated. -/
theorem ndsctl_auth_authenticated_witness :
    ∃ ip mac, ndsctl_auth exampleCollab [exampleClient 2] (bytes "10.0.0.5") =
      ([Event.LOCK_CLIENT_LIST, Event.UNLOCK_CLIENT_LIST,
        Event.auth_client_authenticate ip mac, Event.fprintf "Yes"],
       [exampleClient 2]) :=
  ndsctl_auth_authenticated exampleCollab [exampleClient 2] (bytes "10.0.0.5") 0
    (exampleClient 2) (by decide) (by decide) (by decide)

/-! ## The event loop -/

/-- A readable, error-free entry on a descriptor other than the listening
socket, while the local `fd` is open: the call made is `ndsctl_handler` on the
local `fd`, the descriptor of the last `accept`, while the descriptor removed
from the set is the one of the entry. -/
theorem handle_event_serves_local_fd (sock : Int) (s : LoopState) (r : Ready)
    (hrun : s.exited = false)
    (herr : r.ev.events &&& EPOLLERR = 0) (hhup : r.ev.events &&& EPOLLHUP = 0)
    (hin : r.ev.events &&& EPOLLIN ≠ 0) (hfd : r.ev.fd ≠ sock)
    (hopen : s.fd ∉ s.closed)
    (hstay : r.handler_exits = false) :
    (handle_event sock s r).trace =
      s.trace ++ [LoopEvent.ndsctl_handler s.fd, LoopEvent.epoll_del r.ev.fd] := by
  simp [handle_event, hrun, herr, hhup, hin, hfd, hopen, hstay]

/-- The same input as in claim C8, followed by connection 6 becoming readable:
`ndsctl_handler(6)` is called a second time, on the descriptor the first call
closed, and ends in `fclose(NULL)`. -/
theorem thread_ndsctl_stale_descriptor :
    (thread_ndsctl 3 (loopStart 0)
        [readable 3 5, readable 3 6, readable 5 0, readable 6 0]).trace =
      [LoopEvent.accepted 5, LoopEvent.epoll_add 5, LoopEvent.accepted 6, LoopEvent.epoll_add 6,
        LoopEvent.ndsctl_handler 6, LoopEvent.epoll_del 5,
        LoopEvent.ndsctl_handler 6, LoopEvent.fclose_null] := by
  decide

/-- Claim C8, the code at a failing input: the listening socket is 3; the
connections 5 and then 6 are accepted, then 5 becomes readable.  The call made
is `ndsctl_handler(6)`: the request of 6 is read, answered and closed, and it
is 5 that is removed from the set. -/
theorem thread_ndsctl_serves_last_accepted :
    (thread_ndsctl 3 (loopStart 0) [readable 3 5, readable 3 6, readable 5 0]).trace =
      [LoopEvent.accepted 5, LoopEvent.epoll_add 5, LoopEvent.accepted 6, LoopEvent.epoll_add 6,
        LoopEvent.ndsctl_handler 6, LoopEvent.epoll_del 5] := by
  decide

/-! ## Locks and external effectors -/

/-- Claim C10 as stated fails: `ndsctl_block` calls `iptables_block_mac` while it
holds the config lock. -/
theorem ndsctl_block_effector_under_lock :
    effectorsUnlocked (ndsctl_block exampleCollab (bytes "00:11:22:33:44:55")) = false := by
  decide

/-- Claim C10 as amended, whatever the collaborators return.

* The lock events of every handler are one acquisition followed by one
  release of its own lock (none for the handlers without a lock), so no lock
  is held when it ends.
* The state-transition calls are made with no lock held; `ndsctl_auth` and
  `ndsctl_deauth` make one such call when the client is found and none
  otherwise.
* `ndsctl_deauth` releases the client-list lock right after acquiring it, and
  calls no external effector while a lock is held; it executes the script
  once when the client is found and a script is configured, and not otherwise.
* Each of the six access-list handlers does, in this order: acquire the config
  lock, call the list function, call the firewall function if and only if the
  list function returned 0, write `Yes` or `No`, release the config lock.  The
  firewall call is thus made while the config lock, and only it, is held. -/
theorem handlers_lock_discipline (inv : Invocation) (v : AccessVerb) (E : Collab)
    (clients : List t_client) (arg : List Nat) :
    (inv.run E clients).1.filter Event.isLock = inv.lockSpan ∧
      heldAfter ⟨false, false⟩ (inv.run E clients).1 = ⟨false, false⟩ ∧
      allUnder (fun h e => !e.isTransition || h.free) ⟨false, false⟩ (inv.run E clients).1
        = true ∧
      ((ndsctl_auth E clients arg).1.filter Event.isTransition).length =
        (if (find_client E arg).isSome then 1 else 0) ∧
      ((ndsctl_deauth E clients arg).1.filter Event.isTransition).length =
        (if (find_client E arg).isSome then 1 else 0) ∧
      (ndsctl_deauth E clients arg).1.take 2 =
        [Event.LOCK_CLIENT_LIST, Event.UNLOCK_CLIENT_LIST] ∧
      effectorsUnlocked (ndsctl_deauth E clients arg).1 = true ∧
      ((ndsctl_deauth E clients arg).1.filter Event.isEffector).length =
        (if (find_client E arg).isSome ∧ E.bin_auth.isSome then 1 else 0) ∧
      v.handler E arg =
        [Event.LOCK_CONFIG, Event.mac_call v.list_fn arg] ++
          (if E.mac_fn v.list_fn arg = 0 then [Event.mac_call v.fw_fn arg] else []) ++
          [Event.fprintf
              (if E.mac_fn v.list_fn arg = 0 ∧ E.mac_fn v.fw_fn arg = 0 then "Yes" else "No"),
            Event.UNLOCK_CONFIG] ∧
      allUnder (fun h e => !e.isEffector || (h.config && !h.client_list)) ⟨false, false⟩
        (v.handler E arg) = true := by
  refine ⟨?_, ?_, ?_, ?_, ?_, ?_, ?_, ?_, ?_, ?_⟩
  · cases inv <;>
      simp only [Invocation.run, Invocation.lockSpan, Ndsctl.ndsctl_stop, Ndsctl.ndsctl_block,
        Ndsctl.ndsctl_unblock, Ndsctl.ndsctl_allow, Ndsctl.ndsctl_unallow, Ndsctl.ndsctl_trust,
        Ndsctl.ndsctl_untrust, Ndsctl.ndsctl_loglevel, Ndsctl.ndsctl_auth, Ndsctl.ndsctl_deauth,
        mac_handler] <;>
      (repeat' split) <;> simp [Event.isLock]
  · cases inv <;>
      simp only [Invocation.run, Ndsctl.ndsctl_stop, Ndsctl.ndsctl_block, Ndsctl.ndsctl_unblock,
        Ndsctl.ndsctl_allow, Ndsctl.ndsctl_unallow, Ndsctl.ndsctl_trust, Ndsctl.ndsctl_untrust,
        Ndsctl.ndsctl_loglevel, Ndsctl.ndsctl_auth, Ndsctl.ndsctl_deauth, mac_handler] <;>
      (repeat' split) <;> simp [heldAfter, Held.step]
  · cases inv <;>
      simp only [Invocation.run, Ndsctl.ndsctl_stop, Ndsctl.ndsctl_block, Ndsctl.ndsctl_unblock,
        Ndsctl.ndsctl_allow, Ndsctl.ndsctl_unallow, Ndsctl.ndsctl_trust, Ndsctl.ndsctl_untrust,
        Ndsctl.ndsctl_loglevel, Ndsctl.ndsctl_auth, Ndsctl.ndsctl_deauth, mac_handler] <;>
      (repeat' split) <;> simp [allUnder, Held.step, Event.isTransition, Held.free]
  · unfold Ndsctl.ndsctl_auth
    cases find_client E arg with
    | none => simp [Event.isTransition]
    | some p =>
      simp only [Option.isSome_some, if_true]
      split <;> cases E.bin_auth <;> simp [Event.isTransition]
  · unfold Ndsctl.ndsctl_deauth
    cases find_client E arg with
    | none => simp [Event.isTransition]
    | some p => cases E.bin_auth <;> simp [Event.isTransition]
  · unfold Ndsctl.ndsctl_deauth
    cases find_client E arg <;> simp
  · simp only [Ndsctl.ndsctl_deauth, effectorsUnlocked]
    (repeat' split) <;> simp [allUnder, Held.step, Event.isEffector, Held.free]
  · unfold Ndsctl.ndsctl_deauth
    cases find_client E arg with
    | none => simp [Event.isEffector]
    | some p => cases E.bin_auth <;> simp [Event.isEffector]
  · cases v <;>
      simp only [AccessVerb.handler, AccessVerb.list_fn, AccessVerb.fw_fn, Ndsctl.ndsctl_block,
        Ndsctl.ndsctl_unblock, Ndsctl.ndsctl_allow, Ndsctl.ndsctl_unallow, Ndsctl.ndsctl_trust,
        Ndsctl.ndsctl_untrust, mac_handler] <;>
      split <;> (try split) <;> simp_all
  · cases v <;>
      simp only [AccessVerb.handler, Ndsctl.ndsctl_block, Ndsctl.ndsctl_unblock,
        Ndsctl.ndsctl_allow, Ndsctl.ndsctl_unallow, Ndsctl.ndsctl_trust, Ndsctl.ndsctl_untrust,
        mac_handler] <;>
      (repeat' split) <;> simp [allUnder, Held.step, Event.isEffector, MacFn.isFirewall]

end Ndsctl
